import Mathlib

/-!
Verification development for the LLM Council backend.

The definitions below are a shallow embedding of the Python backend:

* `src/backend/storage.py` — SQLite-backed conversation storage, modelled by
  an explicit `DB` state threaded through each operation.  Each Python
  function that can raise is modelled as returning `DB × Except String α`:
  the first component is the state after the call (the code checks existence
  before any INSERT, so an error leaves the state unchanged except where the
  source runs an UPDATE first), the second is the result or the raised
  exception's message.
* `src/backend/main.py` — `build_conversation_history`, the
  `history_for_council` adjustment, the synchronous `send_message` endpoint
  and the streaming `send_message_stream` endpoint with its inner
  `event_generator`.

The council functions (`stage1_collect_responses`, `stage2_collect_rankings`,
`calculate_aggregate_rankings`, `stage3_synthesize_final`,
`generate_conversation_title`, `run_full_council`) live in
`backend/council.py`, which only appears through its import in `main.py`;
`main.py` treats their results as opaque JSON payloads and only passes them
along.  They are therefore modelled as opaque environments (`StreamEnv`,
`CouncilEnv`) whose fields record, for each call the orchestrator makes, the
value returned or the exception raised (an `await` that raises is an
`Except.error` carrying the exception's message).
-/

/-- Opaque Stage-1 result set (`stage1_results` in `main.py`): a JSON value
produced by `council.py` and never inspected by the orchestrator. -/
structure Stage1Data where
  val : Nat
deriving DecidableEq

/-- Opaque Stage-2 result set (`stage2_results` in `main.py`). -/
structure Stage2Data where
  val : Nat
deriving DecidableEq

/-- Opaque label-to-model mapping (`label_to_model` in `main.py`). -/
structure LabelMap where
  val : Nat
deriving DecidableEq

/-- Opaque aggregate rankings (`aggregate_rankings` in `main.py`). -/
structure AggRank where
  val : Nat
deriving DecidableEq

/-- The Stage-3 JSON dict as far as `main.py` inspects it:
`build_conversation_history` reads `stage3.get("response", "")`, so the model
keeps the `response` field as an `Option` (a missing key is `none`). -/
structure Stage3Data where
  response : Option String
deriving DecidableEq

/-- A stored `stage3` value.  `build_conversation_history` tests the Python
truthiness of `msg.get("stage3")`; `none` models a falsy value (absent key,
`None`, or an empty dict), `some d` a non-empty dict `d`. -/
abbrev Stage3Val := Option Stage3Data

/-- The `metadata` dict built in `main.py`:
`{'label_to_model': ..., 'aggregate_rankings': ...}`. -/
structure Metadata where
  label_to_model : LabelMap
  aggregate_rankings : AggRank
deriving DecidableEq

/-- The payload of a stored message, mirroring the two row shapes produced by
`storage.get_conversation`: `{"role": "user", "content": ...}` or
`{"role": "assistant", "stage1": ..., "stage2": ..., "stage3": ...[,
"metadata": ...]}`. -/
inductive MsgPayload where
  | user (content : String)
  | assistant (stage1 : Stage1Data) (stage2 : Stage2Data) (stage3 : Stage3Val)
      (metadata : Option Metadata)
deriving DecidableEq

/-- One row of the `messages` table: autoincrement `id`, owning
conversation, and the role-dependent columns. -/
structure MsgRow where
  id : Nat
  conversation_id : String
  payload : MsgPayload
deriving DecidableEq

/-- One row of the `conversations` table. -/
structure Conv where
  id : String
  created_at : String
  title : String
deriving DecidableEq

/-- The SQLite database state: both tables plus the next autoincrement
message id. -/
structure DB where
  convs : List Conv
  messages : List MsgRow
  nextId : Nat
deriving DecidableEq

/-- The conversation dict returned by `storage.get_conversation`. -/
structure ConvView where
  id : String
  created_at : String
  title : String
  messages : List MsgPayload
deriving DecidableEq

/-- The `SELECT id FROM conversations WHERE id = ?` existence check used by
`add_user_message`, `add_assistant_message` and `update_conversation_title`. -/
def convExists (db : DB) (cid : String) : Bool :=
  db.convs.any (fun c => c.id == cid)

/-- `storage.get_conversation`: `None` when the conversation row is missing,
otherwise the conversation dict with its messages `ORDER BY id ASC`
(modelled by an insertion sort on the message ids). -/
def get_conversation (db : DB) (cid : String) : Option ConvView :=
  match db.convs.find? (fun c => c.id == cid) with
  | none => none
  | some c =>
    let rows := db.messages.filter (fun r => r.conversation_id == cid)
    let sorted := List.insertionSort (fun a b : MsgRow => a.id ≤ b.id) rows
    some ⟨c.id, c.created_at, c.title, sorted.map MsgRow.payload⟩

/-- `storage.add_user_message`: raise `ValueError` when the conversation row
is missing (the check runs before the INSERT, so the state is unchanged),
otherwise insert exactly one `user` row. -/
def add_user_message (db : DB) (cid content : String) :
    DB × Except String Unit :=
  if convExists db cid then
    ({ db with
        messages := db.messages ++ [⟨db.nextId, cid, MsgPayload.user content⟩],
        nextId := db.nextId + 1 },
      Except.ok ())
  else
    (db, Except.error ("Conversation " ++ cid ++ " not found"))

/-- `storage.add_assistant_message`: same existence check, then insert one
`assistant` row carrying the three stage payloads and the metadata
(`json.dumps(metadata) if metadata else None` stores `NULL` for a falsy
metadata value, modelled by the `Option`). -/
def add_assistant_message (db : DB) (cid : String) (stage1 : Stage1Data)
    (stage2 : Stage2Data) (stage3 : Stage3Val) (metadata : Option Metadata) :
    DB × Except String Unit :=
  if convExists db cid then
    ({ db with
        messages := db.messages ++
          [⟨db.nextId, cid, MsgPayload.assistant stage1 stage2 stage3 metadata⟩],
        nextId := db.nextId + 1 },
      Except.ok ())
  else
    (db, Except.error ("Conversation " ++ cid ++ " not found"))

/-- `storage.update_conversation_title`: the UPDATE runs first (a no-op when
the row is missing), then the existence check raises `ValueError` when the
conversation does not exist. -/
def update_conversation_title (db : DB) (cid title : String) :
    DB × Except String Unit :=
  let db' := { db with
    convs := db.convs.map (fun c => if c.id == cid then { c with title := title } else c) }
  if convExists db' cid then (db', Except.ok ())
  else (db', Except.error ("Conversation " ++ cid ++ " not found"))

/-- `storage.delete_conversation`: delete the conversation row and report
`cursor.rowcount > 0`.  The connection never enables SQLite foreign keys, so
no cascade touches the `messages` table. -/
def delete_conversation (db : DB) (cid : String) : DB × Bool :=
  ({ db with convs := db.convs.filter (fun c => !(c.id == cid)) },
   db.convs.any (fun c => c.id == cid))

/-- One `{question, verdict}` entry of the conversation history. -/
structure HistoryEntry where
  question : String
  verdict : String
deriving DecidableEq

/-- The body of `build_conversation_history`'s `while i < len(messages) - 1`
loop, with the loop turned into structural recursion on a fuel argument
(`fuel ≥ messages.length - i` suffices, since every iteration increases
`i`).  The bounds checks and the `i + 1 < len(messages)` guard are kept as
in the source; `msg.get("role") == "user"` selects the `user` payload,
`next_msg.get("stage3")` truthiness selects `assistant` payloads with
`stage3 = some s3`, and the verdict is `stage3.get("response", "")`. -/
def build_loop (msgs : List MsgPayload) : Nat → Nat → List HistoryEntry
  | 0, _ => []
  | fuel + 1, i =>
    if i < msgs.length - 1 then
      match msgs[i]? with
      | some (MsgPayload.user c) =>
        if i + 1 < msgs.length then
          match msgs[i + 1]? with
          | some (MsgPayload.assistant _ _ (some s3) _) =>
            ⟨c, s3.response.getD ""⟩ :: build_loop msgs fuel (i + 2)
          | _ => build_loop msgs fuel (i + 1)
        else build_loop msgs fuel (i + 1)
      | _ => build_loop msgs fuel (i + 1)
    else []

/-- `main.build_conversation_history`: scan the stored messages and collect
the adjacent question/verdict pairs.  `messages.length` fuel covers every
iteration of the `while` loop. -/
def build_conversation_history (msgs : List MsgPayload) : List HistoryEntry :=
  build_loop msgs msgs.length 0

/-- The history pairing described by the specification: a `user` message
immediately followed by an `assistant` message carrying a truthy `stage3`
emits one entry and advances by two; any other message advances by one; a
tail of fewer than two messages emits nothing. -/
def build_history_spec : List MsgPayload → List HistoryEntry
  | MsgPayload.user c :: MsgPayload.assistant _ _ (some s3) _ :: rest =>
    ⟨c, s3.response.getD ""⟩ :: build_history_spec rest
  | _ :: next :: rest => build_history_spec (next :: rest)
  | _ => []

/-- `conversation_history if conversation_history else None` in both message
endpoints: an empty history list is passed as `None`, a non-empty one as
itself. -/
def history_for_council (h : List HistoryEntry) : Option (List HistoryEntry) :=
  if h.isEmpty then none else some h

/-- The streaming events yielded by `event_generator`, tagged exactly as the
`type` discriminators in `main.py`.  `stage2_complete` carries both the
Stage-2 result set and the metadata bundle from its `'metadata'` field. -/
inductive Event where
  | stage1_start
  | stage1_complete (data : Stage1Data)
  | stage2_start
  | stage2_complete (data : Stage2Data) (metadata : Metadata)
  | stage3_start
  | stage3_complete (data : Stage3Val)
  | title_complete (title : String)
  | complete
  | error (msg : String)
deriving DecidableEq

/-- Recognizer for `error` events. -/
def Event.isError : Event → Bool
  | Event.error _ => true
  | _ => false

/-- The council calls made by the streaming endpoint, as imported from
`backend.council` (absent from the backend sources; each field records, per
argument tuple, the awaited value or the raised exception's message —
`calculate_aggregate_rankings` is a plain synchronous call). -/
structure StreamEnv where
  stage1_collect_responses :
    String → Option (List HistoryEntry) → Except String Stage1Data
  stage2_collect_rankings :
    String → Stage1Data → Option (List HistoryEntry) →
      Except String (Stage2Data × LabelMap)
  calculate_aggregate_rankings : Stage2Data → LabelMap → AggRank
  stage3_synthesize_final :
    String → Stage1Data → Stage2Data → Option (List HistoryEntry) →
      Except String Stage3Val
  generate_conversation_title : String → Except String String

/-- What consuming the stream produces: the yielded events in order, and the
database state left behind. -/
structure GenResult where
  events : List Event
  db : DB
deriving DecidableEq

/-- The `event_generator` coroutine of `send_message_stream`.  Every
statement of its `try` body is modelled in source order; the first operation
that raises jumps to the `except` handler, which yields a single `error`
event carrying the exception's message and ends the stream.  The title task
is created before Stage 1 but its exception (if any) only surfaces at the
`await title_task` after Stage 3; its successful await updates the title and
yields `title_complete` before the assistant message is persisted. -/
def event_generator (env : StreamEnv) (db : DB) (cid content : String)
    (is_first_message : Bool) (history : Option (List HistoryEntry)) :
    GenResult :=
  match add_user_message db cid content with
  | (db1, Except.error e) => ⟨[Event.error e], db1⟩
  | (db1, Except.ok _) =>
    match env.stage1_collect_responses content history with
    | Except.error e => ⟨[Event.stage1_start, Event.error e], db1⟩
    | Except.ok stage1_results =>
      let ev1 := [Event.stage1_start, Event.stage1_complete stage1_results,
                  Event.stage2_start]
      match env.stage2_collect_rankings content stage1_results history with
      | Except.error e => ⟨ev1 ++ [Event.error e], db1⟩
      | Except.ok (stage2_results, label_to_model) =>
        let aggregate_rankings :=
          env.calculate_aggregate_rankings stage2_results label_to_model
        let md : Metadata := ⟨label_to_model, aggregate_rankings⟩
        let ev2 := ev1 ++ [Event.stage2_complete stage2_results md,
                           Event.stage3_start]
        match env.stage3_synthesize_final content stage1_results stage2_results
            history with
        | Except.error e => ⟨ev2 ++ [Event.error e], db1⟩
        | Except.ok stage3_result =>
          let ev3 := ev2 ++ [Event.stage3_complete stage3_result]
          if is_first_message then
            match env.generate_conversation_title content with
            | Except.error e => ⟨ev3 ++ [Event.error e], db1⟩
            | Except.ok title =>
              match update_conversation_title db1 cid title with
              | (db2, Except.error e) => ⟨ev3 ++ [Event.error e], db2⟩
              | (db2, Except.ok _) =>
                let ev4 := ev3 ++ [Event.title_complete title]
                match add_assistant_message db2 cid stage1_results
                    stage2_results stage3_result (some md) with
                | (db3, Except.error e) => ⟨ev4 ++ [Event.error e], db3⟩
                | (db3, Except.ok _) => ⟨ev4 ++ [Event.complete], db3⟩
          else
            match add_assistant_message db1 cid stage1_results stage2_results
                stage3_result (some md) with
            | (db3, Except.error e) => ⟨ev3 ++ [Event.error e], db3⟩
            | (db3, Except.ok _) => ⟨ev3 ++ [Event.complete], db3⟩

/-- Errors surfaced by the HTTP endpoints: an explicit
`HTTPException(status_code=404)` or an uncaught exception (FastAPI's 500). -/
inductive ApiError where
  | notFound (detail : String)
  | internal (msg : String)
deriving DecidableEq

/-- `send_message_stream`: 404 when the conversation is missing; otherwise
compute `is_first_message` and the history before the user message is added,
and hand the generator to the streaming response (modelled as the fully
consumed stream). -/
def send_message_stream (env : StreamEnv) (db : DB) (cid content : String) :
    Except ApiError GenResult :=
  match get_conversation db cid with
  | none => Except.error (ApiError.notFound "Conversation not found")
  | some conversation =>
    let is_first_message := conversation.messages.length == 0
    let history_for_council_arg :=
      history_for_council (build_conversation_history conversation.messages)
    Except.ok
      (event_generator env db cid content is_first_message
        history_for_council_arg)

/-- The council calls made by the synchronous endpoint. -/
structure CouncilEnv where
  generate_conversation_title : String → Except String String
  run_full_council :
    String → Option (List HistoryEntry) →
      Except String (Stage1Data × Stage2Data × Stage3Val × Metadata)

/-- The JSON body returned by the synchronous `send_message` endpoint. -/
structure SyncResponse where
  stage1 : Stage1Data
  stage2 : Stage2Data
  stage3 : Stage3Val
  metadata : Metadata
deriving DecidableEq

/-- The synchronous `send_message` endpoint: 404 when the conversation is
missing; otherwise add the user message, generate and store the title when
this is the first message, run the full council with the (possibly `None`)
history, persist the assistant message and return all stages.  Any raised
exception propagates as a request failure with the state reached so far. -/
def send_message (env : CouncilEnv) (db : DB) (cid content : String) :
    DB × Except ApiError SyncResponse :=
  match get_conversation db cid with
  | none => (db, Except.error (ApiError.notFound "Conversation not found"))
  | some conversation =>
    let is_first_message := conversation.messages.length == 0
    let conversation_history := build_conversation_history conversation.messages
    match add_user_message db cid content with
    | (db1, Except.error e) => (db1, Except.error (ApiError.internal e))
    | (db1, Except.ok _) =>
      let titled : DB × Except String Unit :=
        if is_first_message then
          match env.generate_conversation_title content with
          | Except.error e => (db1, Except.error e)
          | Except.ok title => update_conversation_title db1 cid title
        else (db1, Except.ok ())
      match titled with
      | (db2, Except.error e) => (db2, Except.error (ApiError.internal e))
      | (db2, Except.ok _) =>
        match env.run_full_council content
            (history_for_council conversation_history) with
        | Except.error e => (db2, Except.error (ApiError.internal e))
        | Except.ok (stage1_results, stage2_results, stage3_result, md) =>
          match add_assistant_message db2 cid stage1_results stage2_results
              stage3_result (some md) with
          | (db3, Except.error e) => (db3, Except.error (ApiError.internal e))
          | (db3, Except.ok _) =>
            (db3, Except.ok ⟨stage1_results, stage2_results, stage3_result, md⟩)

/-- A tail of fewer than two messages yields no history pair. -/
theorem build_history_spec_short (l : List MsgPayload) (h : l.length ≤ 1) :
    build_history_spec l = [] := by
  cases l with
  | nil => rfl
  | cons a t =>
    cases t with
    | nil => cases a <;> rfl
    | cons b t2 => simp [List.length_cons] at h

/-- The fuelled index loop agrees with the structural pairing scan on the
remaining suffix, for any sufficient fuel. -/
theorem build_loop_eq_spec (msgs : List MsgPayload) :
    ∀ fuel i, msgs.length - i ≤ fuel →
      build_loop msgs fuel i = build_history_spec (msgs.drop i) := by
  intro fuel
  induction fuel with
  | zero =>
    intro i hi
    have hlen : msgs.length ≤ i := by omega
    rw [List.drop_eq_nil_of_le hlen]
    rfl
  | succ fuel ih =>
    intro i hi
    by_cases h : i < msgs.length - 1
    · have hi1 : i + 1 < msgs.length := by omega
      have hi0 : i < msgs.length := by omega
      have hdrop : msgs.drop i = msgs[i] :: msgs.drop (i + 1) :=
        List.drop_eq_getElem_cons hi0
      have hdrop1 : msgs.drop (i + 1) = msgs[i + 1] :: msgs.drop (i + 2) :=
        List.drop_eq_getElem_cons hi1
      have hq : msgs[i]? = some msgs[i] := List.getElem?_eq_getElem hi0
      have hq1 : msgs[i + 1]? = some msgs[i + 1] := List.getElem?_eq_getElem hi1
      simp only [build_loop, if_pos h, if_pos hi1, hq, hq1]
      cases hmi : msgs[i] with
      | user c =>
        rw [hmi] at hdrop
        cases hmi1 : msgs[i + 1] with
        | user c2 =>
          rw [hmi1] at hdrop1
          rw [hdrop, hdrop1, ih (i + 1) (by omega), hdrop1]
          rfl
        | assistant a1 a2 a3 amd =>
          rw [hmi1] at hdrop1
          cases a3 with
          | none =>
            rw [hdrop, hdrop1, ih (i + 1) (by omega), hdrop1]
            rfl
          | some s3 =>
            rw [hdrop, hdrop1, ih (i + 2) (by omega)]
            rfl
      | assistant a1 a2 a3 amd =>
        rw [hmi] at hdrop
        cases hmi1 : msgs[i + 1] with
        | user c2 =>
          rw [hmi1] at hdrop1
          rw [hdrop, hdrop1, ih (i + 1) (by omega), hdrop1]
          rfl
        | assistant b1 b2 b3 bmd =>
          rw [hmi1] at hdrop1
          rw [hdrop, hdrop1, ih (i + 1) (by omega), hdrop1]
          rfl
    · simp only [build_loop, if_neg h]
      have hshort : (msgs.drop i).length ≤ 1 := by
        rw [List.length_drop]; omega
      rw [build_history_spec_short _ hshort]

/-- C5: `build_conversation_history` scans sequentially, emitting a
question/verdict pair exactly for each `user` message immediately followed by
an `assistant` message carrying a truthy `stage3` (advancing by two on a
match, by one otherwise, never aborting on a malformed message), and on
`[user "Q1", assistant(stage3.response = "V1"), user "Q2"]` it returns
exactly `[{question := "Q1", verdict := "V1"}]`, excluding the trailing
unanswered user message. -/
theorem build_conversation_history_pairing :
    (∀ msgs : List MsgPayload,
        build_conversation_history msgs = build_history_spec msgs) ∧
    build_conversation_history
        [MsgPayload.user "Q1",
         MsgPayload.assistant ⟨1⟩ ⟨2⟩ (some ⟨some "V1"⟩) none,
         MsgPayload.user "Q2"] =
      [⟨"Q1", "V1"⟩] := by
  constructor
  · intro msgs
    exact build_loop_eq_spec msgs msgs.length 0 (by omega)
  · rfl

/-- A successful `get_conversation` implies the existence check of the write
operations succeeds for the same id. -/
theorem convExists_of_get_some {db : DB} {cid : String} {v : ConvView}
    (h : get_conversation db cid = some v) : convExists db cid = true := by
  unfold get_conversation at h
  cases hf : db.convs.find? (fun c => c.id == cid) with
  | none => rw [hf] at h; exact absurd h (by simp)
  | some c =>
    have hmem : c ∈ db.convs := List.mem_of_find?_eq_some hf
    have hp : (c.id == cid) = true := by simpa using List.find?_some hf
    exact List.any_eq_true.mpr ⟨c, hmem, hp⟩

/-- The database state after the turn's user message is inserted. -/
def dbAfterUser (db : DB) (cid content : String) : DB :=
  { db with
    messages := db.messages ++ [⟨db.nextId, cid, MsgPayload.user content⟩],
    nextId := db.nextId + 1 }

/-- The database state after a completed turn: the user row, then the
assistant row. -/
def dbAfterTurn (db : DB) (cid content : String) (s1 : Stage1Data)
    (s2 : Stage2Data) (s3 : Stage3Val) (md : Metadata) : DB :=
  { db with
    messages := db.messages ++
      [⟨db.nextId, cid, MsgPayload.user content⟩,
       ⟨db.nextId + 1, cid, MsgPayload.assistant s1 s2 s3 (some md)⟩],
    nextId := db.nextId + 2 }

/-- `add_user_message` on an existing conversation: appends exactly the new
user row and bumps the id counter. -/
theorem add_user_message_ok {db : DB} {cid : String} (content : String)
    (h : convExists db cid = true) :
    add_user_message db cid content =
      (dbAfterUser db cid content, Except.ok ()) := by
  simp [add_user_message, dbAfterUser, h]

/-- `add_user_message` on a missing conversation: raises and changes
nothing. -/
theorem add_user_message_err {db : DB} {cid : String} (content : String)
    (h : convExists db cid = false) :
    add_user_message db cid content =
      (db, Except.error ("Conversation " ++ cid ++ " not found")) := by
  simp [add_user_message, h]

/-- `add_assistant_message` on an existing conversation: appends exactly the
new assistant row and bumps the id counter. -/
theorem add_assistant_message_ok {db : DB} {cid : String}
    (s1 : Stage1Data) (s2 : Stage2Data) (s3 : Stage3Val) (md : Option Metadata)
    (h : convExists db cid = true) :
    add_assistant_message db cid s1 s2 s3 md =
      ({ db with
          messages := db.messages ++
            [⟨db.nextId, cid, MsgPayload.assistant s1 s2 s3 md⟩],
          nextId := db.nextId + 1 },
        Except.ok ()) := by
  simp [add_assistant_message, h]

/-- `add_assistant_message` on a missing conversation: raises and changes
nothing. -/
theorem add_assistant_message_err {db : DB} {cid : String}
    (s1 : Stage1Data) (s2 : Stage2Data) (s3 : Stage3Val) (md : Option Metadata)
    (h : convExists db cid = false) :
    add_assistant_message db cid s1 s2 s3 md =
      (db, Except.error ("Conversation " ++ cid ++ " not found")) := by
  simp [add_assistant_message, h]

/-- The UPDATE of `update_conversation_title`: retitle the matching row,
leave every other row alone. -/
def retitle (cid t : String) (convs : List Conv) : List Conv :=
  convs.map (fun c => if c.id == cid then { c with title := t } else c)

/-- `update_conversation_title` unfolded: the UPDATE always happens, the
result depends on the existence check against the updated table. -/
theorem update_title_eq (db : DB) (cid t : String) :
    update_conversation_title db cid t =
      (if convExists { db with convs := retitle cid t db.convs } cid
       then ({ db with convs := retitle cid t db.convs }, Except.ok ())
       else ({ db with convs := retitle cid t db.convs },
         Except.error ("Conversation " ++ cid ++ " not found"))) := rfl

/-- The existence check is invariant under retitling. -/
theorem convExists_retitle (db : DB) (cid t cid' : String) :
    convExists { db with convs := retitle cid t db.convs } cid' =
      convExists db cid' := by
  unfold convExists retitle
  simp only [List.any_map]
  congr 1
  funext c
  simp only [Function.comp_apply]
  split <;> rfl

/-- `update_conversation_title` on an existing conversation: retitles it and
returns normally. -/
theorem update_title_ok {db : DB} {cid : String} (t : String)
    (h : convExists db cid = true) :
    update_conversation_title db cid t =
      ({ db with convs := retitle cid t db.convs }, Except.ok ()) := by
  rw [update_title_eq]
  rw [if_pos]
  rw [convExists_retitle]
  exact h

/-- Adding a user message never touches the conversations table. -/
theorem add_user_convs (db : DB) (cid content : String) :
    (add_user_message db cid content).1.convs = db.convs := by
  unfold add_user_message
  split <;> rfl

/-- C1: in a streaming turn in which every stage succeeds, the events come in
exactly the order stage1_start, stage1_complete, stage2_start,
stage2_complete, stage3_start, stage3_complete, then title_complete exactly
when the conversation had no messages before this turn, then complete. -/
theorem stream_success_event_order
    (env : StreamEnv) (db : DB) (cid content : String)
    (conversation : ConvView) (s1 : Stage1Data) (s2 : Stage2Data)
    (ltm : LabelMap) (s3 : Stage3Val) (t : String)
    (hget : get_conversation db cid = some conversation)
    (h1 : env.stage1_collect_responses content
      (history_for_council (build_conversation_history conversation.messages)) =
      Except.ok s1)
    (h2 : env.stage2_collect_rankings content s1
      (history_for_council (build_conversation_history conversation.messages)) =
      Except.ok (s2, ltm))
    (h3 : env.stage3_synthesize_final content s1 s2
      (history_for_council (build_conversation_history conversation.messages)) =
      Except.ok s3)
    (ht : (conversation.messages.length == 0) = true →
      env.generate_conversation_title content = Except.ok t) :
    ∃ g : GenResult,
      send_message_stream env db cid content = Except.ok g ∧
      g.events =
        (if conversation.messages.length == 0 then
          [Event.stage1_start, Event.stage1_complete s1, Event.stage2_start,
           Event.stage2_complete s2
             ⟨ltm, env.calculate_aggregate_rankings s2 ltm⟩,
           Event.stage3_start, Event.stage3_complete s3,
           Event.title_complete t, Event.complete]
        else
          [Event.stage1_start, Event.stage1_complete s1, Event.stage2_start,
           Event.stage2_complete s2
             ⟨ltm, env.calculate_aggregate_rankings s2 ltm⟩,
           Event.stage3_start, Event.stage3_complete s3, Event.complete]) := by
  have hex : convExists db cid = true := convExists_of_get_some hget
  unfold send_message_stream
  rw [hget]
  refine ⟨_, rfl, ?_⟩
  obtain ⟨db1, hdb1, hconvs1⟩ :
      ∃ db1, add_user_message db cid content = (db1, Except.ok ()) ∧
        db1.convs = db.convs := by
    rw [add_user_message_ok content hex]
    exact ⟨_, rfl, rfl⟩
  have hex1 : convExists db1 cid = true := by
    unfold convExists
    rw [hconvs1]
    exact hex
  simp only [event_generator, hdb1, h1, h2, h3]
  by_cases hfirst : (conversation.messages.length == 0) = true
  · have htk := ht hfirst
    have hex2 : convExists { db1 with convs := retitle cid t db1.convs } cid =
        true := by
      rw [convExists_retitle]
      exact hex1
    have hassist := add_assistant_message_ok s1 s2 s3
      (some ⟨ltm, env.calculate_aggregate_rankings s2 ltm⟩) hex2
    simp [hfirst, htk, update_title_ok t hex1, hassist]
  · have hassist := add_assistant_message_ok s1 s2 s3
      (some ⟨ltm, env.calculate_aggregate_rankings s2 ltm⟩) hex1
    simp [hfirst, hassist]

/-- Existence-check invariance under retitling, at the list level. -/
theorem any_retitle (convs : List Conv) (cid t cid' : String) :
    ((retitle cid t convs).any fun c => c.id == cid') =
      convs.any fun c => c.id == cid' := by
  unfold retitle
  simp only [List.any_map]
  congr 1
  funext c
  simp only [Function.comp_apply]
  split <;> rfl

/-- `update_conversation_title` on a missing conversation: the UPDATE is a
no-op on every row and the check raises. -/
theorem update_title_err {db : DB} {cid : String} (t : String)
    (h : convExists db cid = false) :
    update_conversation_title db cid t =
      ({ db with convs := retitle cid t db.convs },
        Except.error ("Conversation " ++ cid ++ " not found")) := by
  rw [update_title_eq, if_neg]
  rw [convExists_retitle]
  simp [h]

/-- Destructured form of a successful `add_user_message`. -/
theorem add_user_message_ok_parts {db : DB} {cid : String} (content : String)
    (h : convExists db cid = true) :
    ∃ db1, add_user_message db cid content = (db1, Except.ok ()) ∧
      db1.convs = db.convs ∧
      db1.messages =
        db.messages ++ [⟨db.nextId, cid, MsgPayload.user content⟩] ∧
      db1.nextId = db.nextId + 1 := by
  rw [add_user_message_ok content h]
  exact ⟨_, rfl, rfl, rfl, rfl⟩

/-- Destructured form of a successful `add_assistant_message`. -/
theorem add_assistant_message_ok_parts {db : DB} {cid : String}
    (s1 : Stage1Data) (s2 : Stage2Data) (s3 : Stage3Val) (md : Option Metadata)
    (h : convExists db cid = true) :
    ∃ db', add_assistant_message db cid s1 s2 s3 md = (db', Except.ok ()) ∧
      db'.convs = db.convs ∧
      db'.messages = db.messages ++
        [⟨db.nextId, cid, MsgPayload.assistant s1 s2 s3 md⟩] ∧
      db'.nextId = db.nextId + 1 := by
  rw [add_assistant_message_ok s1 s2 s3 md h]
  exact ⟨_, rfl, rfl, rfl, rfl⟩

/-- Destructured form of a successful `update_conversation_title`. -/
theorem update_title_ok_parts {db : DB} {cid : String} (t : String)
    (h : convExists db cid = true) :
    ∃ db2, update_conversation_title db cid t = (db2, Except.ok ()) ∧
      db2.convs = retitle cid t db.convs ∧
      db2.messages = db.messages ∧
      db2.nextId = db.nextId := by
  rw [update_title_ok t h]
  exact ⟨_, rfl, rfl, rfl, rfl⟩

/-- The database state after a completed first turn: the two new rows plus
the retitled conversation row. -/
def dbAfterTurnTitled (db : DB) (cid content t : String) (s1 : Stage1Data)
    (s2 : Stage2Data) (s3 : Stage3Val) (md : Metadata) : DB :=
  { convs := retitle cid t db.convs,
    messages := db.messages ++
      [⟨db.nextId, cid, MsgPayload.user content⟩,
       ⟨db.nextId + 1, cid, MsgPayload.assistant s1 s2 s3 (some md)⟩],
    nextId := db.nextId + 2 }

/-- `event_generator` when the user insert raises (conversation missing):
one error event, nothing persisted. -/
theorem event_generator_user_err (env : StreamEnv) {db : DB} {cid : String}
    (content : String) (first : Bool) (history : Option (List HistoryEntry))
    (hex : convExists db cid = false) :
    event_generator env db cid content first history =
      ⟨[Event.error ("Conversation " ++ cid ++ " not found")], db⟩ := by
  unfold event_generator
  rw [add_user_message_err content hex]

/-- `event_generator` when Stage 1 raises. -/
theorem event_generator_stage1_err (env : StreamEnv) {db : DB} {cid : String}
    {content : String} (first : Bool) {history : Option (List HistoryEntry)}
    {e : String}
    (hex : convExists db cid = true)
    (h1 : env.stage1_collect_responses content history = Except.error e) :
    event_generator env db cid content first history =
      ⟨[Event.stage1_start, Event.error e], dbAfterUser db cid content⟩ := by
  unfold event_generator
  rw [add_user_message_ok content hex]
  simp only []
  rw [h1]

/-- `event_generator` when Stage 2 raises. -/
theorem event_generator_stage2_err (env : StreamEnv) {db : DB} {cid : String}
    {content : String} (first : Bool) {history : Option (List HistoryEntry)}
    {s1 : Stage1Data} {e : String}
    (hex : convExists db cid = true)
    (h1 : env.stage1_collect_responses content history = Except.ok s1)
    (h2 : env.stage2_collect_rankings content s1 history = Except.error e) :
    event_generator env db cid content first history =
      ⟨[Event.stage1_start, Event.stage1_complete s1, Event.stage2_start,
        Event.error e], dbAfterUser db cid content⟩ := by
  unfold event_generator
  rw [add_user_message_ok content hex]
  simp only []
  rw [h1]
  simp only []
  rw [h2]
  rfl

/-- `event_generator` when Stage 3 raises; `stage2_complete` already carried
the aggregate-rankings metadata. -/
theorem event_generator_stage3_err (env : StreamEnv) {db : DB} {cid : String}
    {content : String} (first : Bool) {history : Option (List HistoryEntry)}
    {s1 : Stage1Data} {s2 : Stage2Data} {ltm : LabelMap} {e : String}
    (hex : convExists db cid = true)
    (h1 : env.stage1_collect_responses content history = Except.ok s1)
    (h2 : env.stage2_collect_rankings content s1 history = Except.ok (s2, ltm))
    (h3 : env.stage3_synthesize_final content s1 s2 history = Except.error e) :
    event_generator env db cid content first history =
      ⟨[Event.stage1_start, Event.stage1_complete s1, Event.stage2_start,
        Event.stage2_complete s2 ⟨ltm, env.calculate_aggregate_rankings s2 ltm⟩,
        Event.stage3_start, Event.error e], dbAfterUser db cid content⟩ := by
  unfold event_generator
  rw [add_user_message_ok content hex]
  simp only []
  rw [h1]
  simp only []
  rw [h2]
  simp only []
  rw [h3]
  rfl

/-- `event_generator` on a first turn whose awaited title task raises: the
three stages already streamed, then the error event; the turn is not
persisted and the conversation row is untouched. -/
theorem event_generator_title_err (env : StreamEnv) {db : DB} {cid : String}
    {content : String} {history : Option (List HistoryEntry)}
    {s1 : Stage1Data} {s2 : Stage2Data} {ltm : LabelMap} {s3 : Stage3Val}
    {e : String}
    (hex : convExists db cid = true)
    (h1 : env.stage1_collect_responses content history = Except.ok s1)
    (h2 : env.stage2_collect_rankings content s1 history = Except.ok (s2, ltm))
    (h3 : env.stage3_synthesize_final content s1 s2 history = Except.ok s3)
    (htg : env.generate_conversation_title content = Except.error e) :
    event_generator env db cid content true history =
      ⟨[Event.stage1_start, Event.stage1_complete s1, Event.stage2_start,
        Event.stage2_complete s2 ⟨ltm, env.calculate_aggregate_rankings s2 ltm⟩,
        Event.stage3_start, Event.stage3_complete s3, Event.error e],
       dbAfterUser db cid content⟩ := by
  unfold event_generator
  rw [add_user_message_ok content hex]
  simp only []
  rw [h1]
  simp only []
  rw [h2]
  simp only []
  rw [h3]
  simp only []
  rw [if_pos trivial]
  rw [htg]
  rfl

/-- `event_generator` on a successful non-first turn. -/
theorem event_generator_ok_later (env : StreamEnv) {db : DB} {cid : String}
    {content : String} {history : Option (List HistoryEntry)}
    {s1 : Stage1Data} {s2 : Stage2Data} {ltm : LabelMap} {s3 : Stage3Val}
    (hex : convExists db cid = true)
    (h1 : env.stage1_collect_responses content history = Except.ok s1)
    (h2 : env.stage2_collect_rankings content s1 history = Except.ok (s2, ltm))
    (h3 : env.stage3_synthesize_final content s1 s2 history = Except.ok s3) :
    event_generator env db cid content false history =
      ⟨[Event.stage1_start, Event.stage1_complete s1, Event.stage2_start,
        Event.stage2_complete s2 ⟨ltm, env.calculate_aggregate_rankings s2 ltm⟩,
        Event.stage3_start, Event.stage3_complete s3, Event.complete],
       dbAfterTurn db cid content s1 s2 s3
         ⟨ltm, env.calculate_aggregate_rankings s2 ltm⟩⟩ := by
  have hexU : convExists (dbAfterUser db cid content) cid = true := hex
  unfold event_generator
  rw [add_user_message_ok content hex]
  simp only []
  rw [h1]
  simp only []
  rw [h2]
  simp only []
  rw [h3]
  simp only []
  rw [if_neg (by simp)]
  rw [add_assistant_message_ok s1 s2 s3
    (some ⟨ltm, env.calculate_aggregate_rankings s2 ltm⟩) hexU]
  simp [dbAfterUser, dbAfterTurn, List.append_assoc]

/-- `event_generator` on a successful first turn: title awaited after Stage
3, `title_complete` before `complete`, conversation retitled. -/
theorem event_generator_ok_first (env : StreamEnv) {db : DB} {cid : String}
    {content : String} {history : Option (List HistoryEntry)}
    {s1 : Stage1Data} {s2 : Stage2Data} {ltm : LabelMap} {s3 : Stage3Val}
    {t : String}
    (hex : convExists db cid = true)
    (h1 : env.stage1_collect_responses content history = Except.ok s1)
    (h2 : env.stage2_collect_rankings content s1 history = Except.ok (s2, ltm))
    (h3 : env.stage3_synthesize_final content s1 s2 history = Except.ok s3)
    (htg : env.generate_conversation_title content = Except.ok t) :
    event_generator env db cid content true history =
      ⟨[Event.stage1_start, Event.stage1_complete s1, Event.stage2_start,
        Event.stage2_complete s2 ⟨ltm, env.calculate_aggregate_rankings s2 ltm⟩,
        Event.stage3_start, Event.stage3_complete s3, Event.title_complete t,
        Event.complete],
       dbAfterTurnTitled db cid content t s1 s2 s3
         ⟨ltm, env.calculate_aggregate_rankings s2 ltm⟩⟩ := by
  have hexU : convExists (dbAfterUser db cid content) cid = true := hex
  have hex2 : convExists
      { dbAfterUser db cid content with
        convs := retitle cid t (dbAfterUser db cid content).convs } cid =
      true := by
    rw [convExists_retitle]
    exact hexU
  unfold event_generator
  rw [add_user_message_ok content hex]
  simp only []
  rw [h1]
  simp only []
  rw [h2]
  simp only []
  rw [h3]
  simp only []
  rw [if_pos trivial]
  rw [htg]
  simp only []
  rw [update_title_ok t hexU]
  simp only []
  rw [add_assistant_message_ok s1 s2 s3
    (some ⟨ltm, env.calculate_aggregate_rankings s2 ltm⟩) hex2]
  simp [dbAfterUser, dbAfterTurnTitled, List.append_assoc]

/-- C2: whenever a streaming turn surfaces an error event with message `m`
(the model of an uncaught exception raised at any stage), that event is the
last event of the stream, it is the only error event, no `complete` event is
ever emitted, and the assistant message is not persisted: the message table
gains at most the user row added at the start of the turn. -/
theorem stream_error_event_terminal
    (env : StreamEnv) (db : DB) (cid content : String) (first : Bool)
    (history : Option (List HistoryEntry)) (m : String)
    (hm : Event.error m ∈
      (event_generator env db cid content first history).events) :
    (event_generator env db cid content first history).events.getLast? =
        some (Event.error m) ∧
    ((event_generator env db cid content first history).events.filter
        Event.isError).length = 1 ∧
    Event.complete ∉ (event_generator env db cid content first history).events ∧
    ((event_generator env db cid content first history).db.messages =
        db.messages ∨
      (event_generator env db cid content first history).db.messages =
        db.messages ++ [⟨db.nextId, cid, MsgPayload.user content⟩]) := by
  by_cases hex : convExists db cid = true
  · cases hs1 : env.stage1_collect_responses content history with
    | error e =>
      rw [event_generator_stage1_err env first hex hs1] at hm ⊢
      simp at hm
      subst hm
      simp [Event.isError, dbAfterUser]
    | ok s1 =>
      cases hs2 : env.stage2_collect_rankings content s1 history with
      | error e =>
        rw [event_generator_stage2_err env first hex hs1 hs2] at hm ⊢
        simp at hm
        subst hm
        simp [Event.isError, dbAfterUser]
      | ok p =>
        obtain ⟨s2, ltm⟩ := p
        cases hs3 : env.stage3_synthesize_final content s1 s2 history with
        | error e =>
          rw [event_generator_stage3_err env first hex hs1 hs2 hs3] at hm ⊢
          simp at hm
          subst hm
          simp [Event.isError, dbAfterUser]
        | ok s3 =>
          cases first with
          | false =>
            rw [event_generator_ok_later env hex hs1 hs2 hs3] at hm
            simp at hm
          | true =>
            cases htg : env.generate_conversation_title content with
            | error e =>
              rw [event_generator_title_err env hex hs1 hs2 hs3 htg] at hm ⊢
              simp at hm
              subst hm
              simp [Event.isError, dbAfterUser]
            | ok t =>
              rw [event_generator_ok_first env hex hs1 hs2 hs3 htg] at hm
              simp at hm
  · have hex2 : convExists db cid = false := by simpa using hex
    rw [event_generator_user_err env content first history hex2] at hm ⊢
    simp at hm
    subst hm
    simp [Event.isError]

/-- C6: once Stage 2 resolves successfully, the fourth event of the stream
is `stage2_complete`, bundling the Stage-2 result set with a metadata object
holding the label-to-model mapping and the aggregate rankings computed
synchronously by `calculate_aggregate_rankings`, and `stage3_start` does not
occur among those first four events. -/
theorem stage2_complete_bundles_metadata
    (env : StreamEnv) (db : DB) (cid content : String) (first : Bool)
    (history : Option (List HistoryEntry)) (s1 : Stage1Data) (s2 : Stage2Data)
    (ltm : LabelMap)
    (hex : convExists db cid = true)
    (h1 : env.stage1_collect_responses content history = Except.ok s1)
    (h2 : env.stage2_collect_rankings content s1 history =
      Except.ok (s2, ltm)) :
    (event_generator env db cid content first history).events.take 4 =
      [Event.stage1_start, Event.stage1_complete s1, Event.stage2_start,
       Event.stage2_complete s2
         ⟨ltm, env.calculate_aggregate_rankings s2 ltm⟩] ∧
    Event.stage3_start ∉
      (event_generator env db cid content first history).events.take 4 := by
  cases hs3 : env.stage3_synthesize_final content s1 s2 history with
  | error e =>
    rw [event_generator_stage3_err env first hex h1 h2 hs3]
    simp
  | ok s3 =>
    cases first with
    | false =>
      rw [event_generator_ok_later env hex h1 h2 hs3]
      simp
    | true =>
      cases htg : env.generate_conversation_title content with
      | error e =>
        rw [event_generator_title_err env hex h1 h2 hs3 htg]
        simp
      | ok t =>
        rw [event_generator_ok_first env hex h1 h2 hs3 htg]
        simp

/-- C7: the history handed to the council is `none` exactly when the builder
yields no pairs, and the builder's non-empty output itself otherwise. -/
theorem history_arg_none_iff_empty (msgs : List MsgPayload) :
    (build_conversation_history msgs = [] →
      history_for_council (build_conversation_history msgs) = none) ∧
    (∀ p l, build_conversation_history msgs = p :: l →
      history_for_council (build_conversation_history msgs) = some (p :: l)) := by
  constructor
  · intro h
    rw [h]
    rfl
  · intro p l h
    rw [h]
    rfl

/-- One conversation with no messages yet: the state a first turn starts
from. -/
def dbOne : DB := ⟨[⟨"c", "2024-01-01", "New Conversation"⟩], [], 0⟩

/-- Council calls that all succeed, including title generation. -/
def envAllOk : StreamEnv :=
  { stage1_collect_responses := fun _ _ => Except.ok ⟨1⟩
    stage2_collect_rankings := fun _ _ _ => Except.ok (⟨2⟩, ⟨3⟩)
    calculate_aggregate_rankings := fun _ _ => ⟨4⟩
    stage3_synthesize_final := fun _ _ _ _ => Except.ok (some ⟨some "V"⟩)
    generate_conversation_title := fun _ => Except.ok "T" }

/-- Council calls that succeed except for title generation. -/
def envTitleFail : StreamEnv :=
  { stage1_collect_responses := fun _ _ => Except.ok ⟨1⟩
    stage2_collect_rankings := fun _ _ _ => Except.ok (⟨2⟩, ⟨3⟩)
    calculate_aggregate_rankings := fun _ _ => ⟨4⟩
    stage3_synthesize_final := fun _ _ _ _ => Except.ok (some ⟨some "V"⟩)
    generate_conversation_title := fun _ => Except.error "title failed" }

/-- Council calls whose Stage 1 raises. -/
def envStage1Fail : StreamEnv :=
  { stage1_collect_responses := fun _ _ => Except.error "s1 boom"
    stage2_collect_rankings := fun _ _ _ => Except.ok (⟨0⟩, ⟨0⟩)
    calculate_aggregate_rankings := fun _ _ => ⟨0⟩
    stage3_synthesize_final := fun _ _ _ _ => Except.ok none
    generate_conversation_title := fun _ => Except.ok "T" }

theorem stream_success_event_order_witness :
    ∃ g : GenResult,
      send_message_stream envAllOk dbOne "c" "q" = Except.ok g ∧
      g.events =
        [Event.stage1_start, Event.stage1_complete ⟨1⟩, Event.stage2_start,
         Event.stage2_complete ⟨2⟩ ⟨⟨3⟩, ⟨4⟩⟩, Event.stage3_start,
         Event.stage3_complete (some ⟨some "V"⟩), Event.title_complete "T",
         Event.complete] := by
  have h := stream_success_event_order envAllOk dbOne "c" "q"
    ⟨"c", "2024-01-01", "New Conversation", []⟩ ⟨1⟩ ⟨2⟩ ⟨3⟩
    (some ⟨some "V"⟩) "T" rfl rfl rfl rfl (fun _ => rfl)
  simpa using h

theorem stream_error_event_terminal_witness :
    (event_generator envStage1Fail dbOne "c" "q" false none).events.getLast? =
        some (Event.error "s1 boom") ∧
    ((event_generator envStage1Fail dbOne "c" "q" false none).events.filter
        Event.isError).length = 1 ∧
    Event.complete ∉
      (event_generator envStage1Fail dbOne "c" "q" false none).events ∧
    ((event_generator envStage1Fail dbOne "c" "q" false none).db.messages =
        dbOne.messages ∨
      (event_generator envStage1Fail dbOne "c" "q" false none).db.messages =
        dbOne.messages ++ [⟨dbOne.nextId, "c", MsgPayload.user "q"⟩]) :=
  stream_error_event_terminal envStage1Fail dbOne "c" "q" false none
    "s1 boom" (by decide)

theorem stage2_complete_bundles_metadata_witness :
    (event_generator envAllOk dbOne "c" "q" false none).events.take 4 =
      [Event.stage1_start, Event.stage1_complete ⟨1⟩, Event.stage2_start,
       Event.stage2_complete ⟨2⟩ ⟨⟨3⟩, ⟨4⟩⟩] ∧
    Event.stage3_start ∉
      (event_generator envAllOk dbOne "c" "q" false none).events.take 4 :=
  stage2_complete_bundles_metadata envAllOk dbOne "c" "q" false none
    ⟨1⟩ ⟨2⟩ ⟨3⟩ rfl rfl rfl

theorem history_arg_none_iff_empty_witness :
    history_for_council (build_conversation_history []) = none ∧
    history_for_council (build_conversation_history
      [MsgPayload.user "Q",
       MsgPayload.assistant ⟨1⟩ ⟨2⟩ (some ⟨some "V"⟩) none]) =
      some [⟨"Q", "V"⟩] :=
  ⟨(history_arg_none_iff_empty []).1 rfl,
   (history_arg_none_iff_empty
      [MsgPayload.user "Q",
       MsgPayload.assistant ⟨1⟩ ⟨2⟩ (some ⟨some "V"⟩) none]).2
     ⟨"Q", "V"⟩ [] rfl⟩

/-- C3 counterexample: on a first-turn streaming request whose
title-generation call raises, the turn does NOT complete and is NOT
persisted — the stream ends in an error event after stage3_complete, no
complete event is emitted, and only the user row was stored. -/
theorem title_failure_nonfatal_counterexample :
    send_message_stream envTitleFail dbOne "c" "q" =
      Except.ok
        ⟨[Event.stage1_start, Event.stage1_complete ⟨1⟩, Event.stage2_start,
          Event.stage2_complete ⟨2⟩ ⟨⟨3⟩, ⟨4⟩⟩, Event.stage3_start,
          Event.stage3_complete (some ⟨some "V"⟩),
          Event.error "title failed"],
         dbAfterUser dbOne "c" "q"⟩ ∧
    Event.complete ∉
      [Event.stage1_start, Event.stage1_complete (⟨1⟩ : Stage1Data),
       Event.stage2_start, Event.stage2_complete ⟨2⟩ ⟨⟨3⟩, ⟨4⟩⟩,
       Event.stage3_start, Event.stage3_complete (some ⟨some "V"⟩),
       Event.error "title failed"] ∧
    (dbAfterUser dbOne "c" "q").messages =
      [⟨0, "c", MsgPayload.user "q"⟩] := by
  refine ⟨rfl, by decide, rfl⟩

/-- C3 amended: a title-generation failure on a first streaming turn is
fatal to the turn: stages 1-3 stream normally, then a single error event
carrying the failure's message ends the stream — no title_complete and no
complete event — the assistant message is not persisted, and the
conversation row (hence its placeholder title) is untouched. -/
theorem title_failure_fatal
    (env : StreamEnv) (db : DB) (cid content : String)
    (conversation : ConvView) (s1 : Stage1Data) (s2 : Stage2Data)
    (ltm : LabelMap) (s3 : Stage3Val) (e : String)
    (hget : get_conversation db cid = some conversation)
    (hfirst : conversation.messages.length = 0)
    (h1 : env.stage1_collect_responses content
      (history_for_council (build_conversation_history conversation.messages)) =
      Except.ok s1)
    (h2 : env.stage2_collect_rankings content s1
      (history_for_council (build_conversation_history conversation.messages)) =
      Except.ok (s2, ltm))
    (h3 : env.stage3_synthesize_final content s1 s2
      (history_for_council (build_conversation_history conversation.messages)) =
      Except.ok s3)
    (htg : env.generate_conversation_title content = Except.error e) :
    send_message_stream env db cid content =
      Except.ok
        ⟨[Event.stage1_start, Event.stage1_complete s1, Event.stage2_start,
          Event.stage2_complete s2
            ⟨ltm, env.calculate_aggregate_rankings s2 ltm⟩,
          Event.stage3_start, Event.stage3_complete s3, Event.error e],
         dbAfterUser db cid content⟩ ∧
    (dbAfterUser db cid content).convs = db.convs ∧
    (dbAfterUser db cid content).messages =
      db.messages ++ [⟨db.nextId, cid, MsgPayload.user content⟩] := by
  have hex : convExists db cid = true := convExists_of_get_some hget
  have hb : (conversation.messages.length == 0) = true := by
    simp [hfirst]
  unfold send_message_stream
  rw [hget]
  simp only []
  rw [hb]
  rw [event_generator_title_err env hex h1 h2 h3 htg]
  exact ⟨rfl, rfl, rfl⟩

theorem title_failure_fatal_witness :
    send_message_stream envTitleFail dbOne "c" "q" =
      Except.ok
        ⟨[Event.stage1_start, Event.stage1_complete ⟨1⟩, Event.stage2_start,
          Event.stage2_complete ⟨2⟩ ⟨⟨3⟩, ⟨4⟩⟩, Event.stage3_start,
          Event.stage3_complete (some ⟨some "V"⟩),
          Event.error "title failed"],
         dbAfterUser dbOne "c" "q"⟩ ∧
    (dbAfterUser dbOne "c" "q").convs = dbOne.convs ∧
    (dbAfterUser dbOne "c" "q").messages =
      dbOne.messages ++ [⟨dbOne.nextId, "c", MsgPayload.user "q"⟩] :=
  title_failure_fatal envTitleFail dbOne "c" "q"
    ⟨"c", "2024-01-01", "New Conversation", []⟩ ⟨1⟩ ⟨2⟩ ⟨3⟩
    (some ⟨some "V"⟩) "title failed" rfl rfl rfl rfl rfl rfl

/-- C4 counterexample: after a Stage-1 failure the stream surfaces an error,
yet the user message inserted at the start of the turn remains stored: the
message list differs from the one before the turn began. -/
theorem turn_atomicity_counterexample :
    send_message_stream envStage1Fail dbOne "c" "q" =
      Except.ok ⟨[Event.stage1_start, Event.error "s1 boom"],
        dbAfterUser dbOne "c" "q"⟩ ∧
    (dbAfterUser dbOne "c" "q").messages ≠ dbOne.messages := by
  refine ⟨rfl, by decide⟩

/-- C4 amended: every turn either completes with the full turn data appended
(the user row, then the assistant row carrying stage1, stage2, stage3 and
metadata), or surfaces an error and no assistant message is recorded — but
the user message inserted at the start of the turn may remain stored after
an error. -/
theorem turn_outcome_dichotomy
    (env : StreamEnv) (cenv : CouncilEnv) (db : DB) (cid content : String)
    (first : Bool) (history : Option (List HistoryEntry)) :
    (((event_generator env db cid content first history).events.getLast? =
        some Event.complete ∧
      ∃ s1 s2 s3 md,
        (event_generator env db cid content first history).db.messages =
          db.messages ++
            [⟨db.nextId, cid, MsgPayload.user content⟩,
             ⟨db.nextId + 1, cid, MsgPayload.assistant s1 s2 s3 (some md)⟩]) ∨
     ((∃ m, (event_generator env db cid content first history).events.getLast? =
        some (Event.error m)) ∧
      ((event_generator env db cid content first history).db.messages =
          db.messages ∨
        (event_generator env db cid content first history).db.messages =
          db.messages ++ [⟨db.nextId, cid, MsgPayload.user content⟩]))) ∧
    ((∃ s1 s2 s3 md,
        (send_message cenv db cid content).2 = Except.ok ⟨s1, s2, s3, md⟩ ∧
        (send_message cenv db cid content).1.messages =
          db.messages ++
            [⟨db.nextId, cid, MsgPayload.user content⟩,
             ⟨db.nextId + 1, cid, MsgPayload.assistant s1 s2 s3 (some md)⟩]) ∨
     ((∃ err, (send_message cenv db cid content).2 = Except.error err) ∧
      ((send_message cenv db cid content).1.messages = db.messages ∨
        (send_message cenv db cid content).1.messages =
          db.messages ++ [⟨db.nextId, cid, MsgPayload.user content⟩]))) := by
  constructor
  · by_cases hex : convExists db cid = true
    · cases hs1 : env.stage1_collect_responses content history with
      | error e =>
        rw [event_generator_stage1_err env first hex hs1]
        exact Or.inr ⟨⟨e, by simp⟩, Or.inr rfl⟩
      | ok s1 =>
        cases hs2 : env.stage2_collect_rankings content s1 history with
        | error e =>
          rw [event_generator_stage2_err env first hex hs1 hs2]
          exact Or.inr ⟨⟨e, by simp⟩, Or.inr rfl⟩
        | ok p =>
          obtain ⟨s2, ltm⟩ := p
          cases hs3 : env.stage3_synthesize_final content s1 s2 history with
          | error e =>
            rw [event_generator_stage3_err env first hex hs1 hs2 hs3]
            exact Or.inr ⟨⟨e, by simp⟩, Or.inr rfl⟩
          | ok s3 =>
            cases first with
            | false =>
              rw [event_generator_ok_later env hex hs1 hs2 hs3]
              exact Or.inl ⟨by simp,
                ⟨s1, s2, s3, ⟨ltm, env.calculate_aggregate_rankings s2 ltm⟩,
                  rfl⟩⟩
            | true =>
              cases htg : env.generate_conversation_title content with
              | error e =>
                rw [event_generator_title_err env hex hs1 hs2 hs3 htg]
                exact Or.inr ⟨⟨e, by simp⟩, Or.inr rfl⟩
              | ok t =>
                rw [event_generator_ok_first env hex hs1 hs2 hs3 htg]
                exact Or.inl ⟨by simp,
                  ⟨s1, s2, s3, ⟨ltm, env.calculate_aggregate_rankings s2 ltm⟩,
                    rfl⟩⟩
    · have hex2 : convExists db cid = false := by simpa using hex
      rw [event_generator_user_err env content first history hex2]
      exact Or.inr ⟨⟨_, rfl⟩, Or.inl rfl⟩
  · cases hget : get_conversation db cid with
    | none =>
      unfold send_message
      rw [hget]
      exact Or.inr ⟨⟨_, rfl⟩, Or.inl rfl⟩
    | some conversation =>
      have hex : convExists db cid = true := convExists_of_get_some hget
      have hexU : convExists (dbAfterUser db cid content) cid = true := hex
      unfold send_message
      rw [hget]
      simp only []
      rw [add_user_message_ok content hex]
      simp only []
      cases hb : conversation.messages.length == 0 with
      | false =>
        rw [if_neg Bool.false_ne_true]
        simp only []
        cases hrun : cenv.run_full_council content
            (history_for_council
              (build_conversation_history conversation.messages)) with
        | error e =>
          exact Or.inr ⟨⟨_, rfl⟩, Or.inr rfl⟩
        | ok q =>
          obtain ⟨s1, s2, s3, md⟩ := q
          simp only []
          rw [add_assistant_message_ok s1 s2 s3 (some md) hexU]
          refine Or.inl ⟨s1, s2, s3, md, rfl, ?_⟩
          simp [dbAfterUser, List.append_assoc]
      | true =>
        rw [if_pos rfl]
        cases htg : cenv.generate_conversation_title content with
        | error e =>
          exact Or.inr ⟨⟨_, rfl⟩, Or.inr rfl⟩
        | ok t =>
          simp only []
          rw [update_title_ok t hexU]
          simp only []
          have hex2 : convExists
              { dbAfterUser db cid content with
                convs := retitle cid t (dbAfterUser db cid content).convs }
              cid = true := by
            rw [convExists_retitle]
            exact hexU
          cases hrun : cenv.run_full_council content
              (history_for_council
                (build_conversation_history conversation.messages)) with
          | error e =>
            exact Or.inr ⟨⟨_, rfl⟩, Or.inr rfl⟩
          | ok q =>
            obtain ⟨s1, s2, s3, md⟩ := q
            simp only []
            rw [add_assistant_message_ok s1 s2 s3 (some md) hex2]
            refine Or.inl ⟨s1, s2, s3, md, rfl, ?_⟩
            simp [dbAfterUser, List.append_assoc]

/-- `get_conversation` yields `none` exactly when no conversation row
carries the id. -/
theorem get_conversation_none_iff (db : DB) (cid : String) :
    get_conversation db cid = none ↔ ∀ c ∈ db.convs, c.id ≠ cid := by
  unfold get_conversation
  cases hf : db.convs.find? (fun c => c.id == cid) with
  | none =>
    simp only []
    constructor
    · intro _ c hc hceq
      rw [List.find?_eq_none] at hf
      exact hf c hc (by simp [hceq])
    · intro _
      trivial
  | some c =>
    simp only []
    constructor
    · intro h
      exact absurd h (by simp)
    · intro hall
      have hmem : c ∈ db.convs := List.mem_of_find?_eq_some hf
      have hp : (c.id == cid) = true := by simpa using List.find?_some hf
      exact absurd (by simpa using hp) (hall c hmem)

/-- When the stored message ids are strictly increasing (as the
autoincrement column guarantees), the `ORDER BY id ASC` of
`get_conversation` returns the conversation's rows in stored insertion
order. -/
theorem get_conversation_messages (db : DB) (cid : String)
    (hwf : db.messages.Pairwise (fun a b => a.id < b.id))
    (conv : ConvView) (hget : get_conversation db cid = some conv) :
    conv.messages =
      (db.messages.filter (fun r => r.conversation_id == cid)).map
        MsgRow.payload := by
  unfold get_conversation at hget
  cases hf : db.convs.find? (fun c => c.id == cid) with
  | none =>
    rw [hf] at hget
    simp at hget
  | some c =>
    rw [hf] at hget
    simp only [] at hget
    have hsub : List.Sublist
        (db.messages.filter (fun r => r.conversation_id == cid))
        db.messages := List.filter_sublist _
    have hs : List.Sorted (fun a b : MsgRow => a.id ≤ b.id)
        (db.messages.filter (fun r => r.conversation_id == cid)) :=
      (hwf.sublist hsub).imp (fun h => Nat.le_of_lt h)
    have hsort := List.Sorted.insertionSort_eq hs
    injection hget with hh
    subst hh
    simp only []
    rw [hsort]

/-- C8: `get_conversation` returns None exactly when no conversation with
the id exists; otherwise it returns the conversation with its messages in
insertion order (ascending message id); and on the None case both message
endpoints answer 404 for every possible council (so no council stage runs)
without touching the database. -/
theorem conversation_lookup_contract (db : DB) (cid content : String) :
    (get_conversation db cid = none ↔ ∀ c ∈ db.convs, c.id ≠ cid) ∧
    (db.messages.Pairwise (fun a b => a.id < b.id) →
      ∀ conv, get_conversation db cid = some conv →
        conv.messages =
          (db.messages.filter (fun r => r.conversation_id == cid)).map
            MsgRow.payload) ∧
    (get_conversation db cid = none →
      (∀ cenv : CouncilEnv, send_message cenv db cid content =
        (db, Except.error (ApiError.notFound "Conversation not found"))) ∧
      (∀ env : StreamEnv, send_message_stream env db cid content =
        Except.error (ApiError.notFound "Conversation not found"))) := by
  refine ⟨get_conversation_none_iff db cid, ?_, ?_⟩
  · intro hwf conv hget
    exact get_conversation_messages db cid hwf conv hget
  · intro hnone
    constructor
    · intro cenv
      unfold send_message
      rw [hnone]
    · intro env
      unfold send_message_stream
      rw [hnone]

/-- Synchronous council calls that all succeed. -/
def cenvAllOk : CouncilEnv :=
  { generate_conversation_title := fun _ => Except.ok "T"
    run_full_council := fun _ _ =>
      Except.ok (⟨1⟩, ⟨2⟩, some ⟨some "V"⟩, ⟨⟨3⟩, ⟨4⟩⟩) }

theorem conversation_lookup_contract_witness :
    get_conversation ⟨[], [], 0⟩ "c" = none ∧
    send_message cenvAllOk ⟨[], [], 0⟩ "c" "q" =
      (⟨[], [], 0⟩, Except.error (ApiError.notFound "Conversation not found")) ∧
    send_message_stream envAllOk ⟨[], [], 0⟩ "c" "q" =
      Except.error (ApiError.notFound "Conversation not found") ∧
    get_conversation dbOne "c" =
      some ⟨"c", "2024-01-01", "New Conversation", []⟩ ∧
    ([] : List MsgPayload) =
      (dbOne.messages.filter (fun r => r.conversation_id == "c")).map
        MsgRow.payload := by
  have h := conversation_lookup_contract ⟨[], [], 0⟩ "c" "q"
  have h2 := conversation_lookup_contract dbOne "c" "q"
  have hn : get_conversation (⟨[], [], 0⟩ : DB) "c" = none :=
    h.1.mpr (by simp)
  exact ⟨hn, (h.2.2 hn).1 cenvAllOk, (h.2.2 hn).2 envAllOk, rfl,
    h2.2.1 (by simp [dbOne]) ⟨"c", "2024-01-01", "New Conversation", []⟩ rfl⟩

/-- The database state after a lone assistant insert. -/
def dbAfterAssistant (db : DB) (cid : String) (s1 : Stage1Data)
    (s2 : Stage2Data) (s3 : Stage3Val) (md : Option Metadata) : DB :=
  { db with
    messages := db.messages ++
      [⟨db.nextId, cid, MsgPayload.assistant s1 s2 s3 md⟩],
    nextId := db.nextId + 1 }

/-- C9: on a missing conversation id both message writers raise ValueError
and leave the database (in particular the messages table) unchanged; on an
existing id each inserts exactly one new row. -/
theorem message_writers_existence_contract
    (db : DB) (cid content : String) (s1 : Stage1Data) (s2 : Stage2Data)
    (s3 : Stage3Val) (md : Option Metadata) :
    ((∀ c ∈ db.convs, c.id ≠ cid) →
      add_user_message db cid content =
        (db, Except.error ("Conversation " ++ cid ++ " not found")) ∧
      add_assistant_message db cid s1 s2 s3 md =
        (db, Except.error ("Conversation " ++ cid ++ " not found"))) ∧
    ((∃ c ∈ db.convs, c.id = cid) →
      add_user_message db cid content =
        (dbAfterUser db cid content, Except.ok ()) ∧
      (dbAfterUser db cid content).messages =
        db.messages ++ [⟨db.nextId, cid, MsgPayload.user content⟩] ∧
      add_assistant_message db cid s1 s2 s3 md =
        (dbAfterAssistant db cid s1 s2 s3 md, Except.ok ()) ∧
      (dbAfterAssistant db cid s1 s2 s3 md).messages =
        db.messages ++ [⟨db.nextId, cid, MsgPayload.assistant s1 s2 s3 md⟩]) := by
  constructor
  · intro hall
    have hexf : convExists db cid = false := by
      unfold convExists
      rw [List.any_eq_false]
      intro c hc
      simpa using hall c hc
    exact ⟨add_user_message_err content hexf,
      add_assistant_message_err s1 s2 s3 md hexf⟩
  · rintro ⟨c, hc, hceq⟩
    have hext : convExists db cid = true :=
      List.any_eq_true.mpr ⟨c, hc, by simp [hceq]⟩
    refine ⟨add_user_message_ok content hext, rfl, ?_, rfl⟩
    rw [add_assistant_message_ok s1 s2 s3 md hext]
    rfl

theorem message_writers_existence_contract_witness :
    add_user_message ⟨[], [], 0⟩ "c" "q" =
      (⟨[], [], 0⟩, Except.error ("Conversation " ++ "c" ++ " not found")) ∧
    (add_user_message dbOne "c" "q").2 = Except.ok () := by
  have h0 := message_writers_existence_contract ⟨[], [], 0⟩ "c" "q"
    ⟨1⟩ ⟨2⟩ none none
  have h1 := message_writers_existence_contract dbOne "c" "q"
    ⟨1⟩ ⟨2⟩ none none
  refine ⟨(h0.1 (by simp)).1, ?_⟩
  rw [(h1.2 ⟨⟨"c", "2024-01-01", "New Conversation"⟩, by simp [dbOne],
    rfl⟩).1]

/-- C10: `delete_conversation` returns true exactly when the conversation
existed at the time of the call, and in either case a subsequent
`get_conversation` with that id returns None. -/
theorem delete_conversation_contract (db : DB) (cid : String) :
    ((delete_conversation db cid).2 = true ↔ ∃ c ∈ db.convs, c.id = cid) ∧
    get_conversation (delete_conversation db cid).1 cid = none := by
  constructor
  · show db.convs.any (fun c => c.id == cid) = true ↔
      ∃ c ∈ db.convs, c.id = cid
    rw [List.any_eq_true]
    constructor
    · rintro ⟨c, hc, hp⟩
      exact ⟨c, hc, by simpa using hp⟩
    · rintro ⟨c, hc, hp⟩
      exact ⟨c, hc, by simp [hp]⟩
  · apply (get_conversation_none_iff _ cid).mpr
    intro c hc
    have hc2 : c ∈ db.convs.filter (fun c => !(c.id == cid)) := hc
    have := (List.mem_filter.mp hc2).2
    simpa using this

theorem delete_conversation_contract_witness :
    (delete_conversation dbOne "c").2 = true ∧
    get_conversation (delete_conversation dbOne "c").1 "c" = none := by
  have h := delete_conversation_contract dbOne "c"
  exact ⟨h.1.mpr ⟨⟨"c", "2024-01-01", "New Conversation"⟩,
    by simp [dbOne], rfl⟩, h.2⟩
